import Mathlib

/-!
Shallow embedding of the redis_like keyspace engine
(`src/core/data_store.py`, `src/structures/*.py`, `src/server/handlers.py`,
`src/storage/persistence.py`) and proofs about the spec's claims.

Modelling conventions:
* Python dicts keyed by strings become functions `String → Option α`
  (`mapSet` / `mapDel` are dict assignment / `del`), except the per-key geo
  dict, which is an association list because `georadius` iterates it.
* Python floats (scores, timestamps, coordinates, `time.time()`) are
  modelled as `ℚ`; the wall clock is passed explicitly as a `now` argument
  wherever the source calls `time.time()`.
* Python exceptions become `Except RErr`; operations that cannot raise are
  plain functions.
* Library primitives that are not part of the repository (`int(...)`,
  `float(...)`, `str(float)`, `np.float32`, `math` trigonometry) are taken
  as function parameters of the operations that use them.
-/

/-- Error taxonomy of `src/core/exceptions.py` (the constructors carry the
format arguments of the corresponding exception classes). -/
inductive RErr where
  | wrongType (expected actual : String)
  | keyNotFound (key : String)
  | outOfRange (msg : String)
  | geoErr (msg : String)
  | vecErr (msg : String)
  | valueErr (msg : String)
deriving DecidableEq

/-- Dict assignment `d[k] = v`. -/
def mapSet {α : Type} (m : String → Option α) (k : String) (v : α) :
    String → Option α :=
  fun k' => if k' = k then some v else m k'

/-- Dict deletion `del d[k]` (total: no-op when absent). -/
def mapDel {α : Type} (m : String → Option α) (k : String) :
    String → Option α :=
  fun k' => if k' = k then none else m k'

/-- The `DataStore` object of `src/core/data_store.py`: one dict per type
family plus the expiration and type metadata dicts. -/
structure DataStore where
  strings : String → Option String
  lists : String → Option (List String)
  sets : String → Option (Finset String)
  hashes : String → Option (List (String × String))
  sorted_sets : String → Option (List (String × ℚ))
  streams : String → Option (List (String × List (String × String)))
  bitmaps : String → Option (List Nat)
  geo : String → Option (List (String × ℚ × ℚ))
  vectors : String → Option (List ℚ)
  expirations : String → Option ℚ
  type_map : String → Option String

/-- A freshly constructed `DataStore()` (all dicts empty). -/
def emptyStore : DataStore where
  strings := fun _ => none
  lists := fun _ => none
  sets := fun _ => none
  hashes := fun _ => none
  sorted_sets := fun _ => none
  streams := fun _ => none
  bitmaps := fun _ => none
  geo := fun _ => none
  vectors := fun _ => none
  expirations := fun _ => none
  type_map := fun _ => none

namespace DataStore

/-- `DataStore._is_expired`: `key in self._expirations and
self._expirations[key] <= time.time()`. -/
def is_expired (s : DataStore) (now : ℚ) (k : String) : Bool :=
  match s.expirations k with
  | some t => decide (t ≤ now)
  | none => false

/-- `DataStore.exists`: `key in self._type_map and not self._is_expired(key)`
(named `existsKey` here). -/
def existsKey (s : DataStore) (now : ℚ) (k : String) : Bool :=
  (s.type_map k).isSome && !(s.is_expired now k)

/-- `DataStore.type`: `'none'` when the key does not exist, else the
type-map entry (named `typeOf` here). -/
def typeOf (s : DataStore) (now : ℚ) (k : String) : String :=
  if s.existsKey now k then (s.type_map k).getD "none" else "none"

/-- `DataStore.expire`: refuses when the key does not exist, else records
`time.time() + seconds`. -/
def expire (s : DataStore) (now : ℚ) (k : String) (seconds : ℚ) :
    DataStore × Bool :=
  if s.existsKey now k then
    ({ s with expirations := mapSet s.expirations k (now + seconds) }, true)
  else (s, false)

/-- `DataStore.ttl`: `None` when the key has no expiration entry; `-2` when
it is absent or expired; else the remaining seconds (or `-2` when they are
not positive). -/
def ttl (s : DataStore) (now : ℚ) (k : String) : Option ℚ :=
  match s.expirations k with
  | none => none
  | some t =>
    if s.existsKey now k = false then some (-2)
    else if t - now > 0 then some (t - now) else some (-2)

end DataStore

/-- Python `int(q)` on a rational: truncation toward zero. -/
def pyTrunc (q : ℚ) : Int :=
  if q < 0 then -((-q).floor) else q.floor

namespace CommandHandler

/-- `CommandHandler._ttl`: `int(ttl) if ttl is not None else -2`. -/
def ttlCmd (s : DataStore) (now : ℚ) (k : String) : Int :=
  match s.ttl now k with
  | some q => pyTrunc q
  | none => -2

/-- `CommandHandler._exists`: `int(self._data.exists(key))`. -/
def existsCmd (s : DataStore) (now : ℚ) (k : String) : Int :=
  if s.existsKey now k then 1 else 0

end CommandHandler

namespace StringOps

/-- `StringOps.set` with its `nx`/`xx`/`ex`/`px`/`keepttl` options; returns
the updated store plus the Python return value (`None` or `True`). -/
def set (s : DataStore) (now : ℚ) (k v : String) (nx xx : Bool)
    (ex px : Option ℚ) (keepttl : Bool) : DataStore × Option Bool :=
  if nx && s.existsKey now k then (s, none)
  else if xx && !(s.existsKey now k) then (s, none)
  else
    let s1 :=
      if !keepttl && (s.expirations k).isSome then
        { s with expirations := mapDel s.expirations k }
      else s
    let s2 := { s1 with strings := mapSet s1.strings k v,
                        type_map := mapSet s1.type_map k "string" }
    let expire_time : Option ℚ :=
      match ex with
      | some e => some e
      | none => match px with
        | some p => some (p / 1000)
        | none => none
    match expire_time with
    | some t => if t ≠ 0 then ((s2.expire now k t).1, some true) else (s2, some true)
    | none => (s2, some true)

/-- `StringOps.get`: `None` when absent, `WrongTypeError` when the key is
not a string, else the stored value. -/
def get (s : DataStore) (now : ℚ) (k : String) :
    Except RErr (Option String) :=
  if s.existsKey now k = false then .ok none
  else if s.typeOf now k ≠ "string" then
    .error (.wrongType "string" (s.typeOf now k))
  else .ok (s.strings k)

/-- `StringOps.append`: read (`or ""`), concatenate, re-store through
`set` (no keepttl), return the new length.  A `WrongTypeError` raised by
the read propagates. -/
def append (s : DataStore) (now : ℚ) (k v : String) :
    Except RErr (DataStore × Nat) :=
  match get s now k with
  | .error e => .error e
  | .ok g =>
    let current := g.getD ""
    let newv := current ++ v
    let p := set s now k newv false false none none false
    .ok (p.1, newv.length)

/-- `StringOps.setrange` (non-negative offset): zero-fill up to `offset`,
splice `value` in, re-store through `set`, return the new length. -/
def setrange (s : DataStore) (now : ℚ) (k : String) (offset : Nat)
    (value : String) : Except RErr (DataStore × Nat) :=
  match get s now k with
  | .error e => .error e
  | .ok g =>
    let current := g.getD ""
    let current :=
      if offset > current.length then
        current ++ String.mk (List.replicate (offset - current.length) (Char.ofNat 0))
      else current
    let newv := current.take offset ++ value ++ current.drop (offset + value.length)
    let p := set s now k newv false false none none false
    .ok (p.1, newv.length)

/-- `StringOps.getset`: read the old value, re-store the new one through
`set`, return the old value. -/
def getset (s : DataStore) (now : ℚ) (k v : String) :
    Except RErr (DataStore × Option String) :=
  match get s now k with
  | .error e => .error e
  | .ok old =>
    let p := set s now k v false false none none false
    .ok (p.1, old)

/-- `StringOps.incrby`; `pint` models Python `int(...)` on strings (an
absent key and the falsy `""` count as 0).  An unparsable value raises
`WrongTypeError('integer', type)`; the result is re-stored through
`set`. -/
def incrby (pint : String → Option Int) (s : DataStore) (now : ℚ)
    (k : String) (increment : Int) : Except RErr (DataStore × Int) :=
  match get s now k with
  | .error e => .error e
  | .ok g =>
    let parsed : Except RErr Int :=
      match g with
      | none => .ok 0
      | some str =>
        if str = "" then .ok 0
        else match pint str with
          | some n => .ok n
          | none => .error (.wrongType "integer" (s.typeOf now k))
    match parsed with
    | .error e => .error e
    | .ok current =>
      let newv := current + increment
      let p := set s now k (toString newv) false false none none false
      .ok (p.1, newv)

/-- `StringOps.incr` = `incrby key 1`. -/
def incr (pint : String → Option Int) (s : DataStore) (now : ℚ)
    (k : String) : Except RErr (DataStore × Int) :=
  incrby pint s now k 1

/-- `StringOps.decr` = `incrby key (-1)`. -/
def decr (pint : String → Option Int) (s : DataStore) (now : ℚ)
    (k : String) : Except RErr (DataStore × Int) :=
  incrby pint s now k (-1)

/-- `StringOps.incrbyfloat`; `pfloat` models Python `float(...)` and `fstr`
models `str(float)`. -/
def incrbyfloat (pfloat : String → Option ℚ) (fstr : ℚ → String)
    (s : DataStore) (now : ℚ) (k : String) (increment : ℚ) :
    Except RErr (DataStore × ℚ) :=
  match get s now k with
  | .error e => .error e
  | .ok g =>
    let parsed : Except RErr ℚ :=
      match g with
      | none => .ok 0
      | some str =>
        if str = "" then .ok 0
        else match pfloat str with
          | some q => .ok q
          | none => .error (.wrongType "float" (s.typeOf now k))
    match parsed with
    | .error e => .error e
    | .ok current =>
      let newv := current + increment
      let p := set s now k (fstr newv) false false none none false
      .ok (p.1, newv)

end StringOps

/-- Result shape of `LPOP`/`RPOP`: Python returns `None`, a single string,
or a list of strings. -/
inductive PopResult where
  | nil
  | one (v : String)
  | many (vs : List String)
deriving DecidableEq

/-- Python slice `l[a:b]` with possibly negative bounds. -/
def pySlice {α : Type} (l : List α) (a b : Int) : List α :=
  let n : Int := l.length
  let lo := if a < 0 then max (n + a) 0 else min a n
  let hi := if b < 0 then max (n + b) 0 else min b n
  (l.take hi.toNat).drop lo.toNat

namespace ListOps

/-- `ListOps.lpush`: create-on-absence using only the `_lists` dict (no
type check), then `lst[0:0] = list(values)` — the argument block is spliced
at the head in argument order; returns the new length. -/
def lpush (s : DataStore) (k : String) (values : List String) :
    DataStore × Nat :=
  let s1 :=
    if (s.lists k).isNone then
      { s with lists := mapSet s.lists k [],
               type_map := mapSet s.type_map k "list" }
    else s
  let newl := values ++ (s1.lists k).getD []
  ({ s1 with lists := mapSet s1.lists k newl }, newl.length)

/-- `ListOps.rpush`: create-on-absence using only the `_lists` dict, then
`extend(values)`; returns the new length. -/
def rpush (s : DataStore) (k : String) (values : List String) :
    DataStore × Nat :=
  let s1 :=
    if (s.lists k).isNone then
      { s with lists := mapSet s.lists k [],
               type_map := mapSet s.type_map k "list" }
    else s
  let newl := (s1.lists k).getD [] ++ values
  ({ s1 with lists := mapSet s1.lists k newl }, newl.length)

/-- `ListOps.lpop`: `None` on a missing key, `WrongTypeError` on another
type; `count = 1` pops the head (list unchanged when already empty),
otherwise pops up to `count` values from the head.  The emptied key is
never deleted. -/
def lpop (s : DataStore) (now : ℚ) (k : String) (count : Nat) :
    Except RErr (DataStore × PopResult) :=
  if s.existsKey now k = false then .ok (s, .nil)
  else if s.typeOf now k ≠ "list" then
    .error (.wrongType "list" (s.typeOf now k))
  else
    let l := (s.lists k).getD []
    if count = 1 then
      match l with
      | [] => .ok (s, .nil)
      | v :: rest => .ok ({ s with lists := mapSet s.lists k rest }, .one v)
    else
      let n := min count l.length
      .ok ({ s with lists := mapSet s.lists k (l.drop n) }, .many (l.take n))

/-- `ListOps.rpop`: like `lpop` but from the tail; `count > 1` collects the
popped values tail-first. -/
def rpop (s : DataStore) (now : ℚ) (k : String) (count : Nat) :
    Except RErr (DataStore × PopResult) :=
  if s.existsKey now k = false then .ok (s, .nil)
  else if s.typeOf now k ≠ "list" then
    .error (.wrongType "list" (s.typeOf now k))
  else
    let l := (s.lists k).getD []
    if count = 1 then
      match l.getLast? with
      | none => .ok (s, .nil)
      | some v => .ok ({ s with lists := mapSet s.lists k l.dropLast }, .one v)
    else
      let n := min count l.length
      .ok ({ s with lists := mapSet s.lists k (l.take (l.length - n)) },
           .many (l.reverse.take n))

/-- `ListOps.llen`: 0 on a missing key, `WrongTypeError` on another type,
else the length. -/
def llen (s : DataStore) (now : ℚ) (k : String) : Except RErr Nat :=
  if s.existsKey now k = false then .ok 0
  else if s.typeOf now k ≠ "list" then
    .error (.wrongType "list" (s.typeOf now k))
  else .ok ((s.lists k).getD []).length

/-- `ListOps.lrange`: clamp `start` below by `-len`, clamp non-negative
`stop` above by `len - 1` (negative `stop` becomes `len + stop`), then
Python-slice `lst[start : stop+1]`. -/
def lrange (s : DataStore) (now : ℚ) (k : String) (start stop : Int) :
    Except RErr (List String) :=
  if s.existsKey now k = false then .ok []
  else if s.typeOf now k ≠ "list" then
    .error (.wrongType "list" (s.typeOf now k))
  else
    let l := (s.lists k).getD []
    let start1 : Int := if start < 0 then max start (-(l.length : Int)) else start
    let stop1 : Int :=
      if stop ≥ 0 then min stop ((l.length : Int) - 1)
      else (l.length : Int) + stop
    .ok (pySlice l start1 (stop1 + 1))

end ListOps

namespace SetOps

/-- `SetOps.sadd`: create-on-absence using only the `_sets` dict (no type
check), then add each member counting the new ones. -/
def sadd (s : DataStore) (k : String) (members : List String) :
    DataStore × Nat :=
  let s1 :=
    if (s.sets k).isNone then
      { s with sets := mapSet s.sets k ∅,
               type_map := mapSet s.type_map k "set" }
    else s
  let p := members.foldl
    (fun (acc : Finset String × Nat) m =>
      if m ∈ acc.1 then acc else (insert m acc.1, acc.2 + 1))
    ((s1.sets k).getD ∅, 0)
  ({ s1 with sets := mapSet s1.sets k p.1 }, p.2)

/-- `SetOps.srem`: 0 on a missing key, `WrongTypeError` on another type,
else remove each listed member counting the removed ones.  The emptied key
is never deleted. -/
def srem (s : DataStore) (now : ℚ) (k : String) (members : List String) :
    Except RErr (DataStore × Nat) :=
  if s.existsKey now k = false then .ok (s, 0)
  else if s.typeOf now k ≠ "set" then
    .error (.wrongType "set" (s.typeOf now k))
  else
    let p := members.foldl
      (fun (acc : Finset String × Nat) m =>
        if m ∈ acc.1 then (acc.1.erase m, acc.2 + 1) else acc)
      ((s.sets k).getD ∅, 0)
    .ok ({ s with sets := mapSet s.sets k p.1 }, p.2)

/-- Gathering loop of `SetOps.sinter`: the first missing key short-circuits
to `∅` (`.ok none` here); a present key of another type raises; otherwise
the key's set is collected. -/
def gatherInterSets (s : DataStore) (now : ℚ) :
    List String → Except RErr (Option (List (Finset String)))
  | [] => .ok (some [])
  | k :: ks =>
    if s.existsKey now k = false then .ok none
    else if s.typeOf now k ≠ "set" then
      .error (.wrongType "set" (s.typeOf now k))
    else
      match gatherInterSets s now ks with
      | .error e => .error e
      | .ok none => .ok none
      | .ok (some l) => .ok (some ((s.sets k).getD ∅ :: l))

/-- `SetOps.sinter`: `∅` for no keys or any missing key, error on a present
key of another type, else `set.intersection(*sets)`. -/
def sinter (s : DataStore) (now : ℚ) (keys : List String) :
    Except RErr (Finset String) :=
  if keys.isEmpty then .ok ∅
  else
    match gatherInterSets s now keys with
    | .error e => .error e
    | .ok none => .ok ∅
    | .ok (some []) => .ok ∅
    | .ok (some (x :: xs)) => .ok (xs.foldl (· ∩ ·) x)

/-- Gathering filter shared by `sunion` and `sdiff`: keep only keys that
exist and are set-typed (missing and wrong-typed keys are silently
skipped). -/
def presentSets (s : DataStore) (now : ℚ) (keys : List String) :
    List (Finset String) :=
  keys.filterMap fun k =>
    if s.existsKey now k = true ∧ s.typeOf now k = "set" then
      some ((s.sets k).getD ∅)
    else none

/-- `SetOps.sunion`: union of the present set-typed keys (`∅` when none). -/
def sunion (s : DataStore) (now : ℚ) (keys : List String) : Finset String :=
  match presentSets s now keys with
  | [] => ∅
  | x :: xs => xs.foldl (· ∪ ·) x

/-- `SetOps.sdiff`: `set.difference(*sets)` over the present set-typed keys
only — an absent first key is skipped, not treated as the empty set. -/
def sdiff (s : DataStore) (now : ℚ) (keys : List String) : Finset String :=
  match presentSets s now keys with
  | [] => ∅
  | x :: xs => xs.foldl (· \ ·) x

/-- Denotation used to state the algebraic claims: the key's set when it is
live and set-typed, else `∅`. -/
def denoteSet (s : DataStore) (now : ℚ) (k : String) : Finset String :=
  if s.existsKey now k = true ∧ s.typeOf now k = "set" then
    (s.sets k).getD ∅
  else ∅

end SetOps

namespace StreamOps

/-- Python `int(entry_id.split('-')[1])` on a generated id (defaults keep
the function total on malformed ids, which the generated ids never are). -/
def seqOf (entry_id : String) : Int :=
  (((entry_id.splitOn "-").getD 1 "").toInt?).getD 0

/-- `StreamOps.xadd`: create-on-absence using only the `_streams` dict (no
type check); `id == "*"` derives `ms-seq` from the wall clock and the last
entry; an explicit id is appended with no monotonicity validation. -/
def xadd (s : DataStore) (now_ms : Int) (k : String)
    (fields : List (String × String)) (stream_id : String) :
    DataStore × String :=
  let s1 :=
    if (s.streams k).isNone then
      { s with streams := mapSet s.streams k [],
               type_map := mapSet s.type_map k "stream" }
    else s
  let id :=
    if stream_id = "*" then
      let cur := (s1.streams k).getD []
      let sequence : Int :=
        match cur.getLast? with
        | some last =>
          if (toString now_ms).isPrefixOf last.1 then seqOf last.1 + 1 else 0
        | none => 0
      toString now_ms ++ "-" ++ toString sequence
    else stream_id
  ({ s1 with streams := mapSet s1.streams k ((s1.streams k).getD [] ++ [(id, fields)]) },
   id)

/-- Truthiness test `count and len(results) >= count`. -/
def countTruthy (count : Option Nat) (n : Nat) : Bool :=
  match count with
  | some c => decide (c ≠ 0) && decide (n ≥ c)
  | none => false

/-- Collection loop of `StreamOps.xrange`: keep entries with
`start <= entry_id <= end` (plain string comparison — the `-`/`+` markers
are not special-cased), stopping once a truthy `count` is reached. -/
def xrangeLoop (start endm : String) (count : Option Nat) :
    List (String × List (String × String)) →
    List (String × List (String × String)) →
    List (String × List (String × String))
  | [], acc => acc
  | e :: rest, acc =>
    if start ≤ e.1 ∧ e.1 ≤ endm then
      let acc1 := acc ++ [e]
      if countTruthy count acc1.length then acc1
      else xrangeLoop start endm count rest acc1
    else xrangeLoop start endm count rest acc

/-- `StreamOps.xrange`: `[]` on a missing key, `WrongTypeError` on another
type, else the collection loop over the stored entries. -/
def xrange (s : DataStore) (now : ℚ) (k start endm : String)
    (count : Option Nat) :
    Except RErr (List (String × List (String × String))) :=
  if s.existsKey now k = false then .ok []
  else if s.typeOf now k ≠ "stream" then
    .error (.wrongType "stream" (s.typeOf now k))
  else .ok (xrangeLoop start endm count ((s.streams k).getD []) [])

end StreamOps

namespace GeoOps

/-- Unit conversion tail of `GeoOps.geodist` (`m`, `mi`, `ft`; anything
else is kilometres; the decimal literals are taken exactly). -/
def convertUnit (unit : String) (d : ℚ) : ℚ :=
  if unit = "m" then d * 1000
  else if unit = "mi" then d * (621371 / 1000000)
  else if unit = "ft" then d * (328084 / 100)
  else d

/-- `GeoOps.geodist`: `None` on a missing key or member, `WrongTypeError`
on another type, else the haversine distance converted to `unit`.  The
parameter `hav lon1 lat1 lon2 lat2` stands for the transcendental haversine
block (Earth radius 6371 km) of the source, which uses `math` library
trigonometry. -/
def geodist (hav : ℚ → ℚ → ℚ → ℚ → ℚ) (s : DataStore) (now : ℚ)
    (k m1 m2 : String) (unit : String) : Except RErr (Option ℚ) :=
  if s.existsKey now k = false then .ok none
  else if s.typeOf now k ≠ "geo" then
    .error (.wrongType "geo" (s.typeOf now k))
  else
    match ((s.geo k).getD []).lookup m1, ((s.geo k).getD []).lookup m2 with
    | some p1, some p2 =>
      .ok (some (convertUnit unit (hav p1.1 p1.2 p2.1 p2.2)))
    | _, _ => .ok none

/-- `GeoOps.georadius`: `[]` on a missing key, `WrongTypeError` on another
type; otherwise, for each member, the source computes
`geodist(key, member, "__temp__", unit)` — the distance to a member
literally named `"__temp__"`, never to the supplied query point (whose
coordinates are unused) — and keeps the member when that distance is not
`None` and at most `radius`. -/
def georadius (hav : ℚ → ℚ → ℚ → ℚ → ℚ) (s : DataStore) (now : ℚ)
    (k : String) (longitude latitude radius : ℚ) (unit : String) :
    Except RErr (List String) :=
  if s.existsKey now k = false then .ok []
  else if s.typeOf now k ≠ "geo" then
    .error (.wrongType "geo" (s.typeOf now k))
  else
    .ok (((s.geo k).getD []).filterMap fun e =>
      match geodist hav s now k e.1 "__temp__" unit with
      | .ok (some d) => if d ≤ radius then some e.1 else none
      | _ => none)

end GeoOps

/-- Process-wide state: the `DataStore` plus the dicts that the vector and
time-series operation objects keep locally (`VectorOps._vectors` holds
`np.float32` arrays, `TimeSeriesOps._series` holds `(timestamp, value)`
samples) — neither lives in the `DataStore`. -/
structure ServerState where
  store : DataStore
  tsSeries : String → Option (List (ℚ × ℚ))
  vecVectors : String → Option (List ℚ)

/-- A freshly started server: empty `DataStore`, empty operation-local
dicts. -/
def freshServer : ServerState where
  store := emptyStore
  tsSeries := fun _ => none
  vecVectors := fun _ => none

namespace TimeSeriesOps

/-- `TimeSeriesOps.ts_add`: create-on-absence using only the ops-local
`_series` dict; default timestamp is `time.time()`; the sample is appended
unconditionally — there is no ordering check and no
`OutOfOrderTimestamp` anywhere in the module. -/
def ts_add (st : ServerState) (now : ℚ) (k : String) (value : ℚ)
    (timestamp : Option ℚ) : ServerState × ℚ :=
  let st1 :=
    if (st.tsSeries k).isNone then
      { st with
        tsSeries := mapSet st.tsSeries k [],
        store := { st.store with
                   type_map := mapSet st.store.type_map k "timeseries" } }
    else st
  let ts := timestamp.getD now
  ({ st1 with
     tsSeries := mapSet st1.tsSeries k ((st1.tsSeries k).getD [] ++ [(ts, value)]) },
   ts)

end TimeSeriesOps

namespace VectorOps

/-- `VectorOps.vec_add`: dimension check, then store the `np.float32`
vector in the ops-local `_vectors` dict (`f32` models the 32-bit rounding)
and tag the type map. -/
def vec_add (f32 : ℚ → ℚ) (dimension : Nat) (st : ServerState)
    (k : String) (vector : List ℚ) : Except RErr (ServerState × Bool) :=
  if vector.length ≠ dimension then
    .error (.vecErr "dimension mismatch")
  else
    .ok ({ st with
           vecVectors := mapSet st.vecVectors k (vector.map f32),
           store := { st.store with
                      type_map := mapSet st.store.type_map k "vector" } },
         true)

end VectorOps

/-- The dictionary pickled by `RDBManager.save`: the nine family dicts of
the `DataStore` plus `expirations` and `type_map` (nothing else). -/
structure RDBData where
  strings : String → Option String
  lists : String → Option (List String)
  sets : String → Option (Finset String)
  hashes : String → Option (List (String × String))
  sorted_sets : String → Option (List (String × ℚ))
  streams : String → Option (List (String × List (String × String)))
  bitmaps : String → Option (List Nat)
  geo : String → Option (List (String × ℚ × ℚ))
  vectors : String → Option (List ℚ)
  expirations : String → Option ℚ
  type_map : String → Option String

namespace RDBManager

/-- `RDBManager.save`: serialize exactly the `DataStore` fields (pickling
is modelled as the identity on the in-memory record).  The ops-local
vector and time-series dicts are not part of the snapshot. -/
def save (st : ServerState) : RDBData where
  strings := st.store.strings
  lists := st.store.lists
  sets := st.store.sets
  hashes := st.store.hashes
  sorted_sets := st.store.sorted_sets
  streams := st.store.streams
  bitmaps := st.store.bitmaps
  geo := st.store.geo
  vectors := st.store.vectors
  expirations := st.store.expirations
  type_map := st.store.type_map

/-- `RDBManager.load`: replace every `DataStore` field with the snapshot's
(the ops-local dicts of the loading server are untouched). -/
def load (st : ServerState) (d : RDBData) : ServerState :=
  { st with
    store :=
      { strings := d.strings
        lists := d.lists
        sets := d.sets
        hashes := d.hashes
        sorted_sets := d.sorted_sets
        streams := d.streams
        bitmaps := d.bitmaps
        geo := d.geo
        vectors := d.vectors
        expirations := d.expirations
        type_map := d.type_map } }

end RDBManager

/-- Association-list assignment `d[k] = v` preserving insertion order
(update in place when present, append when new), mirroring a Python dict
whose iteration order is observed. -/
def alSet {α : Type} (l : List (String × α)) (k : String) (v : α) :
    List (String × α) :=
  match l with
  | [] => [(k, v)]
  | (k', v') :: rest =>
    if k' = k then (k, v) :: rest else (k', v') :: alSet rest k v

namespace GeoOps

/-- `GeoOps.geoadd`: longitude/latitude range validation (`GeoError`),
create-on-absence using only the `_geo` dict (no type check), store the
member's coordinates, return 1 when the member is new. -/
def geoadd (s : DataStore) (k : String) (longitude latitude : ℚ)
    (member : String) : Except RErr (DataStore × Nat) :=
  if ¬(-180 ≤ longitude ∧ longitude ≤ 180) then
    .error (.geoErr "Invalid longitude")
  else if ¬(-90 ≤ latitude ∧ latitude ≤ 90) then
    .error (.geoErr "Invalid latitude")
  else
    let s1 :=
      if (s.geo k).isNone then
        { s with geo := mapSet s.geo k [],
                 type_map := mapSet s.type_map k "geo" }
      else s
    let g := (s1.geo k).getD []
    let is_new := (g.lookup member).isNone
    .ok ({ s1 with geo := mapSet s1.geo k (alSet g member (longitude, latitude)) },
         if is_new then 1 else 0)

end GeoOps

/-- Extract the resulting store of a non-raising operation (the default is
never used in the proofs below, which only apply it to `.ok` results). -/
def okStateD {α : Type} (d : DataStore) :
    Except RErr (DataStore × α) → DataStore
  | .ok p => p.1
  | .error _ => d

/-- Extract the result value of a non-raising operation. -/
def okValD {α : Type} (d : α) : Except RErr (DataStore × α) → α
  | .ok p => p.2
  | .error _ => d

/-- Extract the plain result of a non-raising query. -/
def okResD {α : Type} (d : α) : Except RErr α → α
  | .ok x => x
  | .error _ => d

instance {ε α : Type} [DecidableEq ε] [DecidableEq α] :
    DecidableEq (Except ε α) := fun x y =>
  match x, y with
  | .error a, .error b =>
    if h : a = b then isTrue (congrArg Except.error h)
    else isFalse fun hh => h (by injection hh)
  | .ok a, .ok b =>
    if h : a = b then isTrue (congrArg Except.ok h)
    else isFalse fun hh => h (by injection hh)
  | .error _, .ok _ => isFalse fun hh => Except.noConfusion hh
  | .ok _, .error _ => isFalse fun hh => Except.noConfusion hh

/-- A store holding the single live string key `"k" ↦ "v"` (built through
`StringOps.set` at time 0). -/
def stringKeyStore : DataStore :=
  (StringOps.set emptyStore 0 "k" "v" false false none none false).1

/-- A store holding the single live string key `"k" ↦ "4"` with an
expiration at time 100 (the state that `SET k 4` followed by
`EXPIRE k 100` produces at time 0). -/
def stringKeyExpStore : DataStore :=
  { emptyStore with
    strings := mapSet emptyStore.strings "k" "4",
    type_map := mapSet emptyStore.type_map "k" "string",
    expirations := mapSet emptyStore.expirations "k" 100 }

/-- A store whose stream `"s"` holds the single entry `1-0 ↦ {f: v}`
(built through `StreamOps.xadd` at wall-clock millisecond 0). -/
def streamOneStore : DataStore :=
  (StreamOps.xadd emptyStore 0 "s" [("f", "v")] "1-0").1

/-- A server whose time series `"k"` holds the single sample `(10, 1)`
(built through `TimeSeriesOps.ts_add` at time 0). -/
def tsOneServer : ServerState :=
  (TimeSeriesOps.ts_add freshServer 0 "k" 1 (some 10)).1

/-- A store whose list `"L"` holds `["a"]` (built through `lpush`). -/
def listOneStore : DataStore :=
  (ListOps.lpush emptyStore "L" ["a"]).1

/-- A store after `LPUSH L a b c` on an absent key. -/
def listABCStore : DataStore :=
  (ListOps.lpush emptyStore "L" ["a", "b", "c"]).1

/-- A store whose set `"k2"` is `{"a"}` (built through `sadd`). -/
def setAStore : DataStore :=
  (SetOps.sadd emptyStore "k2" ["a"]).1

/-- A store whose geo key `"places"` holds the member `"Palermo"` at
longitude 13, latitude 38 (built through `GeoOps.geoadd`). -/
def geoPalermoStore : DataStore :=
  okStateD emptyStore (GeoOps.geoadd emptyStore "places" 13 38 "Palermo")

/-- C1 counterexample: on a store where `"k"` is a live string key, `LPUSH
k a` does not fail with WrongType — it returns the new length 1 and
re-types the key to `list` in place, leaving the old string value behind in
the string store. -/
theorem lpush_on_string_key_retypes_cex :
    stringKeyStore.type_map "k" = some "string" ∧
    (ListOps.lpush stringKeyStore "k" ["a"]).2 = 1 ∧
    (ListOps.lpush stringKeyStore "k" ["a"]).1.type_map "k" = some "list" ∧
    (ListOps.lpush stringKeyStore "k" ["a"]).1.strings "k" = some "v" := by
  decide

/-- C1 amended: the create-on-absence operations check only their own
family dict, never the key's current type, so on a key of any other type
they succeed and overwrite the type map in place (shown for the cited
`lpush` and `sadd`): a key's type can change without delete-then-create. -/
theorem create_ops_skip_type_check :
    ∀ (s : DataStore) (k : String) (vals members : List String) (T : String),
      s.type_map k = some T →
      (s.lists k = none →
        (ListOps.lpush s k vals).1.type_map k = some "list" ∧
        (ListOps.lpush s k vals).2 = vals.length) ∧
      (s.sets k = none →
        (SetOps.sadd s k members).1.type_map k = some "set") := by
  intro s k vals members T _hT
  constructor
  · intro hl
    unfold ListOps.lpush
    simp [hl, mapSet]
  · intro hs
    unfold SetOps.sadd
    simp [hs, mapSet]

/-- C1 witness: the amended statement applied to the concrete string-keyed
store. -/
theorem create_ops_skip_type_check_witness :
    (ListOps.lpush stringKeyStore "k" ["a"]).1.type_map "k" = some "list" ∧
    (SetOps.sadd stringKeyStore "k" ["a"]).1.type_map "k" = some "set" :=
  ⟨((create_ops_skip_type_check stringKeyStore "k" ["a"] ["a"] "string"
      rfl).1 rfl).1,
   (create_ops_skip_type_check stringKeyStore "k" ["a"] ["a"] "string"
      rfl).2 rfl⟩

/-- C3 (code bug): for the live string key `"k"` with no expiration set,
the TTL command returns −2 (the handler maps the store's `None` to −2
instead of −1) while EXISTS returns 1 — contradicting both the spec's TTL
table and its invariant `TTL(k) = −2 → EXISTS(k) = 0`. -/
theorem ttl_live_no_expiry_returns_neg2 :
    CommandHandler.ttlCmd stringKeyStore 0 "k" = -2 ∧
    CommandHandler.existsCmd stringKeyStore 0 "k" = 1 := by
  decide

/-- C2 counterexample: a keyspace holding one time-series key (`"k"` with
sample `(10, 1)`) does not round-trip through an RDB save plus a load into
a fresh server: the type map still says `timeseries` but the samples are
gone, because `TimeSeriesOps._series` is not part of the snapshot. -/
theorem rdb_roundtrip_loses_timeseries_cex :
    tsOneServer.store.type_map "k" = some "timeseries" ∧
    tsOneServer.tsSeries "k" = some [(10, 1)] ∧
    (RDBManager.load freshServer (RDBManager.save tsOneServer)).store.type_map "k"
      = some "timeseries" ∧
    (RDBManager.load freshServer (RDBManager.save tsOneServer)).tsSeries "k"
      = none := by
  decide

/-- C2 amended: an RDB save followed by a load into a fresh server restores
the entire `DataStore` exactly — the nine resident families plus
expirations and the type map — while the ops-local vector and time-series
payloads are not in the snapshot and come back empty. -/
theorem rdb_roundtrip_store_exact :
    ∀ st : ServerState,
      (RDBManager.load freshServer (RDBManager.save st)).store = st.store ∧
      (RDBManager.load freshServer (RDBManager.save st)).tsSeries
        = freshServer.tsSeries ∧
      (RDBManager.load freshServer (RDBManager.save st)).vecVectors
        = freshServer.vecVectors := by
  intro st
  exact ⟨rfl, rfl, rfl⟩

/-- C5 counterexample: on a series whose last sample has timestamp 10,
`TSADD` with timestamp 5 succeeds (returns 5) and appends, leaving the
stored timestamps decreasing — no `OutOfOrderTimestamp` is raised. -/
theorem tsadd_decreasing_timestamp_accepted_cex :
    (TimeSeriesOps.ts_add tsOneServer 0 "k" 2 (some 5)).2 = 5 ∧
    (TimeSeriesOps.ts_add tsOneServer 0 "k" 2 (some 5)).1.tsSeries "k"
      = some [(10, 1), (5, 2)] := by
  decide

/-- C5 amended: `TSADD` performs no ordering check at all — for every
state and every explicit timestamp (even one smaller than the last stored
sample's) it returns the timestamp and appends the sample. -/
theorem tsadd_appends_unconditionally :
    ∀ (st : ServerState) (now : ℚ) (k : String) (v ts : ℚ),
      (TimeSeriesOps.ts_add st now k v (some ts)).2 = ts ∧
      (TimeSeriesOps.ts_add st now k v (some ts)).1.tsSeries k
        = some ((st.tsSeries k).getD [] ++ [(ts, v)]) := by
  intro st now k v ts
  refine ⟨rfl, ?_⟩
  unfold TimeSeriesOps.ts_add
  cases h : st.tsSeries k <;> simp [h, mapSet]

/-- C7 counterexample: after `LPUSH L a b c` on an absent key, `LRANGE L 0
-1` returns `["a","b","c"]` (not `["c","b","a"]`) and `RPOP L` returns
`"c"` (not `"a"`): `lpush` splices the whole argument block at the head in
argument order instead of pushing each value in turn. -/
theorem lpush_block_splice_scenario_cex :
    ListOps.lrange listABCStore 0 "L" 0 (-1) = .ok ["a", "b", "c"] ∧
    ListOps.lrange listABCStore 0 "L" 0 (-1) ≠ .ok ["c", "b", "a"] ∧
    okValD .nil (ListOps.rpop listABCStore 0 "L" 1) = .one "c" := by
  decide

/-- C7 amended: the scenario's actual outputs — after `LPUSH L a b c` on
an absent key, `LRANGE L 0 -1` returns `["a","b","c"]`, `RPOP L` returns
`"c"`, and `LLEN L` then returns 2. -/
theorem lpush_scenario_actual_outputs :
    ListOps.lrange listABCStore 0 "L" 0 (-1) = .ok ["a", "b", "c"] ∧
    okValD .nil (ListOps.rpop listABCStore 0 "L" 1) = .one "c" ∧
    ListOps.llen (okStateD emptyStore (ListOps.rpop listABCStore 0 "L" 1)) 0 "L"
      = .ok 2 := by
  decide

/-- C4 counterexample: on a stream whose last entry has id `1-0`, a second
`XADD` with the same explicit id `1-0` succeeds (returns the id) and
appends, instead of failing with StreamIdNotMonotonic. -/
theorem xadd_duplicate_id_accepted_cex :
    (StreamOps.xadd streamOneStore 0 "s" [("f", "v")] "1-0").2 = "1-0" ∧
    (StreamOps.xadd streamOneStore 0 "s" [("f", "v")] "1-0").1.streams "s"
      = some [("1-0", [("f", "v")]), ("1-0", [("f", "v")])] := by
  decide

/-- Helper: the `xrange` collection loop with the literal markers `-`/`+`
adds nothing, because no string is both `≥ "-"` and `≤ "+"`. -/
theorem xrangeLoop_dash_plus (count : Option Nat) :
    ∀ (l acc : List (String × List (String × String))),
      StreamOps.xrangeLoop "-" "+" count l acc = acc := by
  intro l
  induction l with
  | nil => intro acc; rfl
  | cons e rest ih =>
    intro acc
    unfold StreamOps.xrangeLoop
    have h : ¬("-" ≤ e.1 ∧ e.1 ≤ "+") := by
      rintro ⟨h1, h2⟩
      exact absurd (String.le_iff_toList_le.mp (le_trans h1 h2)) (by decide)
    rw [if_neg h]
    exact ih acc

/-- C4 amended: `XADD` performs no monotonicity validation — every
explicit id is returned as-is and the entry is appended unconditionally;
and `XRANGE` over the full range `- +` returns the empty sequence (which
is trivially strictly increasing) because the markers are compared as
plain strings. -/
theorem xadd_no_monotonic_validation :
    (∀ (s : DataStore) (nms : Int) (k : String)
       (fields : List (String × String)) (id : String),
        id ≠ "*" →
        (StreamOps.xadd s nms k fields id).2 = id ∧
        (StreamOps.xadd s nms k fields id).1.streams k
          = some ((s.streams k).getD [] ++ [(id, fields)])) ∧
    (∀ (s : DataStore) (now : ℚ) (k : String) (count : Option Nat)
       (r : List (String × List (String × String))),
        StreamOps.xrange s now k "-" "+" count = .ok r → r = []) := by
  constructor
  · intro s nms k fields id hid
    unfold StreamOps.xadd
    cases h : s.streams k <;> simp [h, hid, mapSet]
  · intro s now k count r h
    unfold StreamOps.xrange at h
    split at h
    · simpa using h.symm
    · split at h
      · simp at h
      · rw [xrangeLoop_dash_plus] at h
        simpa using h.symm

/-- C4 witness: the amended statement applied to the one-entry stream. -/
theorem xadd_no_monotonic_validation_witness :
    ((StreamOps.xadd streamOneStore 0 "s" [("f", "v")] "1-0").2 = "1-0" ∧
     (StreamOps.xadd streamOneStore 0 "s" [("f", "v")] "1-0").1.streams "s"
       = some ((streamOneStore.streams "s").getD [] ++ [("1-0", [("f", "v")])])) ∧
    okResD [("x", [])] (StreamOps.xrange streamOneStore 0 "s" "-" "+" none)
      = [] :=
  ⟨xadd_no_monotonic_validation.1 streamOneStore 0 "s" [("f", "v")] "1-0"
      (by decide),
   xadd_no_monotonic_validation.2 streamOneStore 0 "s" none
      (okResD [("x", [])] (StreamOps.xrange streamOneStore 0 "s" "-" "+" none))
      rfl⟩

/-- C6 counterexample: popping the only element of list `"L"` leaves the
key present — afterwards `EXISTS` returns 1 and `TYPE` returns `list`
(the claim requires 0 and `none`), with the empty list retained. -/
theorem emptied_list_key_still_exists_cex :
    okValD .nil (ListOps.lpop listOneStore 0 "L" 1) = .one "a" ∧
    (okStateD emptyStore (ListOps.lpop listOneStore 0 "L" 1)).lists "L"
      = some [] ∧
    CommandHandler.existsCmd
      (okStateD emptyStore (ListOps.lpop listOneStore 0 "L" 1)) 0 "L" = 1 ∧
    DataStore.typeOf
      (okStateD emptyStore (ListOps.lpop listOneStore 0 "L" 1)) 0 "L"
      = "list" := by
  decide

/-- C6 amended: the removal operations never delete the key, emptied or
not — after any `LPOP` or `SREM` (raising invocations leave the store
unchanged), the type map and expirations are untouched, so the key's
existence and reported type are unchanged (shown for the cited `lpop` and
`srem`). -/
theorem removal_ops_preserve_key_presence :
    (∀ (s : DataStore) (now : ℚ) (k : String) (c : Nat),
        (okStateD s (ListOps.lpop s now k c)).type_map = s.type_map ∧
        (okStateD s (ListOps.lpop s now k c)).expirations = s.expirations ∧
        DataStore.existsKey (okStateD s (ListOps.lpop s now k c)) now k
          = s.existsKey now k ∧
        DataStore.typeOf (okStateD s (ListOps.lpop s now k c)) now k
          = s.typeOf now k) ∧
    (∀ (s : DataStore) (now : ℚ) (k : String) (ms : List String),
        (okStateD s (SetOps.srem s now k ms)).type_map = s.type_map ∧
        (okStateD s (SetOps.srem s now k ms)).expirations = s.expirations ∧
        DataStore.existsKey (okStateD s (SetOps.srem s now k ms)) now k
          = s.existsKey now k ∧
        DataStore.typeOf (okStateD s (SetOps.srem s now k ms)) now k
          = s.typeOf now k) := by
  constructor
  · intro s now k c
    have H : okStateD s (ListOps.lpop s now k c)
        = { s with lists := (okStateD s (ListOps.lpop s now k c)).lists } := by
      simp only [ListOps.lpop]
      split
      · rfl
      · split
        · rfl
        · split
          · split
            · rfl
            · rfl
          · rfl
    exact ⟨congrArg (fun st => st.type_map) H,
           congrArg (fun st => st.expirations) H,
           congrArg (fun st => st.existsKey now k) H,
           congrArg (fun st => st.typeOf now k) H⟩
  · intro s now k ms
    have H : okStateD s (SetOps.srem s now k ms)
        = { s with sets := (okStateD s (SetOps.srem s now k ms)).sets } := by
      simp only [SetOps.srem]
      split
      · rfl
      · split
        · rfl
        · rfl
    exact ⟨congrArg (fun st => st.type_map) H,
           congrArg (fun st => st.expirations) H,
           congrArg (fun st => st.existsKey now k) H,
           congrArg (fun st => st.typeOf now k) H⟩

/-- C8 counterexample: with `"k2" ↦ {"a"}` and an absent first key, `SDIFF
missing k2` returns `{"a"}` (the absent first key is skipped, and the
difference starts from the first present key) rather than the empty set
the claim requires. -/
theorem sdiff_absent_first_key_cex :
    SetOps.sdiff setAStore 0 ["missing", "k2"] = {"a"} ∧
    SetOps.sdiff setAStore 0 ["missing", "k2"] ≠ (∅ : Finset String) := by
  decide

/-- Helper: membership in a left fold of unions. -/
theorem mem_foldl_union_iff (m : String) :
    ∀ (xs : List (Finset String)) (a : Finset String),
      m ∈ xs.foldl (· ∪ ·) a ↔ m ∈ a ∨ ∃ x ∈ xs, m ∈ x := by
  intro xs
  induction xs with
  | nil => intro a; simp
  | cons x rest ih =>
    intro a
    rw [List.foldl_cons, ih]
    simp only [Finset.mem_union, List.mem_cons, exists_eq_or_imp]
    tauto

/-- Helper: membership in a left fold of intersections. -/
theorem mem_foldl_inter_iff (m : String) :
    ∀ (xs : List (Finset String)) (a : Finset String),
      m ∈ xs.foldl (· ∩ ·) a ↔ m ∈ a ∧ ∀ x ∈ xs, m ∈ x := by
  intro xs
  induction xs with
  | nil => intro a; simp
  | cons x rest ih =>
    intro a
    rw [List.foldl_cons, ih]
    simp only [Finset.mem_inter, List.forall_mem_cons]
    tauto

/-- Helper: membership in a left fold of set differences. -/
theorem mem_foldl_sdiff_iff (m : String) :
    ∀ (xs : List (Finset String)) (a : Finset String),
      m ∈ xs.foldl (· \ ·) a ↔ m ∈ a ∧ ∀ x ∈ xs, m ∉ x := by
  intro xs
  induction xs with
  | nil => intro a; simp
  | cons x rest ih =>
    intro a
    rw [List.foldl_cons, ih]
    simp only [Finset.mem_sdiff, List.forall_mem_cons]
    tauto

/-- Helper: iterated difference equals first set minus the union of the
rest. -/
theorem foldl_sdiff_eq_sdiff_union (xs : List (Finset String))
    (a : Finset String) :
    xs.foldl (· \ ·) a = a \ xs.foldl (· ∪ ·) ∅ := by
  apply Finset.ext
  intro m
  rw [mem_foldl_sdiff_iff, Finset.mem_sdiff, mem_foldl_union_iff]
  simp only [Finset.not_mem_empty, false_or, not_exists]
  tauto

/-- Helper: an element appears in one of the gathered present sets exactly
when some key of the list denotes a set containing it. -/
theorem exists_mem_presentSets_iff (s : DataStore) (now : ℚ)
    (keys : List String) (m : String) :
    (∃ y ∈ SetOps.presentSets s now keys, m ∈ y)
      ↔ ∃ k ∈ keys, m ∈ SetOps.denoteSet s now k := by
  unfold SetOps.presentSets SetOps.denoteSet
  simp only [List.mem_filterMap]
  constructor
  · rintro ⟨y, ⟨k, hk, hfk⟩, hm⟩
    refine ⟨k, hk, ?_⟩
    by_cases hc : s.existsKey now k = true ∧ s.typeOf now k = "set"
    · rw [if_pos hc] at hfk
      rw [if_pos hc, Option.some.inj hfk]
      exact hm
    · rw [if_neg hc] at hfk
      exact Option.noConfusion hfk
  · rintro ⟨k, hk, hm⟩
    by_cases hc : s.existsKey now k = true ∧ s.typeOf now k = "set"
    · rw [if_pos hc] at hm
      exact ⟨(s.sets k).getD ∅, ⟨k, hk, if_pos hc⟩, hm⟩
    · rw [if_neg hc] at hm
      exact absurd hm (Finset.not_mem_empty m)

/-- Helper: `sunion` membership matches the union of the keys'
denotations. -/
theorem sunion_mem_denote (s : DataStore) (now : ℚ) (keys : List String)
    (m : String) :
    m ∈ SetOps.sunion s now keys ↔
      ∃ k ∈ keys, m ∈ SetOps.denoteSet s now k := by
  rw [← exists_mem_presentSets_iff]
  unfold SetOps.sunion
  cases h : SetOps.presentSets s now keys with
  | nil => simp
  | cons x xs =>
    rw [mem_foldl_union_iff]
    simp only [List.mem_cons, exists_eq_or_imp]

/-- Helper: a successful non-short-circuited gather returns exactly the
keys' sets, and certifies that every key is live and set-typed. -/
theorem gatherInterSets_ok_some (s : DataStore) (now : ℚ) :
    ∀ (ks : List String) (l : List (Finset String)),
      SetOps.gatherInterSets s now ks = .ok (some l) →
      l = ks.map (fun k => (s.sets k).getD ∅) ∧
      ∀ k ∈ ks, s.existsKey now k = true ∧ s.typeOf now k = "set" := by
  intro ks
  induction ks with
  | nil =>
    intro l h
    simp only [SetOps.gatherInterSets, Except.ok.injEq, Option.some.injEq] at h
    subst h
    simp
  | cons k rest ih =>
    intro l h
    unfold SetOps.gatherInterSets at h
    by_cases h1 : s.existsKey now k = false
    · rw [if_pos h1] at h
      simp at h
    · rw [if_neg h1] at h
      by_cases h2 : s.typeOf now k = "set"
      · rw [if_neg (not_not_intro h2)] at h
        cases hg : SetOps.gatherInterSets s now rest with
        | error e => rw [hg] at h; simp at h
        | ok o =>
          cases o with
          | none => rw [hg] at h; simp at h
          | some lrest =>
            rw [hg] at h
            simp only [Except.ok.injEq, Option.some.injEq] at h
            obtain ⟨hmap, hall⟩ := ih lrest hg
            subst h
            refine ⟨by rw [hmap]; rfl, ?_⟩
            intro k' hk'
            rcases List.mem_cons.mp hk' with rfl | hmem
            · refine ⟨?_, h2⟩
              cases hb : s.existsKey now k'
              · exact absurd hb h1
              · rfl
            · exact hall k' hmem
      · rw [if_pos h2] at h
        simp at h

/-- Helper: a short-circuited gather certifies that some key is missing. -/
theorem gatherInterSets_ok_none (s : DataStore) (now : ℚ) :
    ∀ ks : List String,
      SetOps.gatherInterSets s now ks = .ok none →
      ∃ k ∈ ks, s.existsKey now k = false := by
  intro ks
  induction ks with
  | nil =>
    intro h
    simp [SetOps.gatherInterSets] at h
  | cons k rest ih =>
    intro h
    unfold SetOps.gatherInterSets at h
    by_cases h1 : s.existsKey now k = false
    · exact ⟨k, List.mem_cons_self k rest, h1⟩
    · rw [if_neg h1] at h
      by_cases h2 : s.typeOf now k = "set"
      · rw [if_neg (not_not_intro h2)] at h
        cases hg : SetOps.gatherInterSets s now rest with
        | error e => rw [hg] at h; simp at h
        | ok o =>
          cases o with
          | none =>
            obtain ⟨k', hk', hx⟩ := ih hg
            exact ⟨k', List.mem_cons_of_mem k hk', hx⟩
          | some lrest => rw [hg] at h; simp at h
      · rw [if_pos h2] at h
        simp at h

/-- Helper: `sinter` membership, on a non-empty key list and a successful
run, matches the intersection of the keys' denotations. -/
theorem sinter_mem_denote (s : DataStore) (now : ℚ) (keys : List String)
    (r : Finset String) (m : String) (hne : keys ≠ [])
    (h : SetOps.sinter s now keys = .ok r) :
    m ∈ r ↔ ∀ k ∈ keys, m ∈ SetOps.denoteSet s now k := by
  unfold SetOps.sinter at h
  cases keys with
  | nil => exact absurd rfl hne
  | cons k0 ks =>
    simp only [List.isEmpty_cons, Bool.false_eq_true, if_false] at h
    cases hg : SetOps.gatherInterSets s now (k0 :: ks) with
    | error e => rw [hg] at h; simp at h
    | ok o =>
      cases o with
      | none =>
        rw [hg] at h
        simp only [Except.ok.injEq] at h
        subst h
        obtain ⟨kmiss, hkm, hmiss⟩ := gatherInterSets_ok_none s now _ hg
        simp only [Finset.not_mem_empty, false_iff, not_forall]
        refine ⟨kmiss, hkm, ?_⟩
        unfold SetOps.denoteSet
        rw [if_neg (by simp [hmiss])]
        exact Finset.not_mem_empty m
      | some l =>
        obtain ⟨hmap, hall⟩ := gatherInterSets_ok_some s now _ l hg
        subst hmap
        rw [hg] at h
        simp only [List.map_cons, Except.ok.injEq] at h
        subst h
        rw [mem_foldl_inter_iff]
        constructor
        · rintro ⟨hm0, hrest⟩ k hk
          have hd : SetOps.denoteSet s now k = (s.sets k).getD ∅ := by
            unfold SetOps.denoteSet
            exact if_pos (hall k hk)
          rw [hd]
          rcases List.mem_cons.mp hk with rfl | hmem
          · exact hm0
          · exact hrest _ (List.mem_map_of_mem _ hmem)
        · intro hforall
          constructor
          · have := hforall k0 (List.mem_cons_self k0 ks)
            unfold SetOps.denoteSet at this
            rwa [if_pos (hall k0 (List.mem_cons_self k0 ks))] at this
          · intro y hy
            obtain ⟨k, hkmem, rfl⟩ := List.mem_map.mp hy
            have := hforall k (List.mem_cons_of_mem k0 hkmem)
            unfold SetOps.denoteSet at this
            rwa [if_pos (hall k (List.mem_cons_of_mem k0 hkmem))] at this

/-- Helper: `sdiff` equals the first present key's set minus the union of
the remaining present keys' sets. -/
theorem sdiff_first_present_minus_union (s : DataStore) (now : ℚ)
    (keys : List String) :
    SetOps.sdiff s now keys =
      match SetOps.presentSets s now keys with
      | [] => ∅
      | x :: xs => x \ xs.foldl (· ∪ ·) ∅ := by
  unfold SetOps.sdiff
  cases h : SetOps.presentSets s now keys with
  | nil => rfl
  | cons x xs => exact foldl_sdiff_eq_sdiff_union xs x

/-- C8 amended: `SINTER` and `SUNION` match their set-algebraic
definitions over the keys' denotations (a key that is absent — or not
set-typed — denotes `∅`), but `SDIFF` is computed over the *present*
set-typed keys only: it returns the first present key's set minus the
union of the remaining present keys' sets, so an absent first key is
skipped rather than treated as the empty set. -/
theorem set_algebra_characterization :
    (∀ (s : DataStore) (now : ℚ) (keys : List String) (m : String),
        m ∈ SetOps.sunion s now keys ↔
          ∃ k ∈ keys, m ∈ SetOps.denoteSet s now k) ∧
    (∀ (s : DataStore) (now : ℚ) (keys : List String) (r : Finset String)
       (m : String),
        keys ≠ [] → SetOps.sinter s now keys = .ok r →
        (m ∈ r ↔ ∀ k ∈ keys, m ∈ SetOps.denoteSet s now k)) ∧
    (∀ (s : DataStore) (now : ℚ) (keys : List String),
        SetOps.sdiff s now keys =
          match SetOps.presentSets s now keys with
          | [] => ∅
          | x :: xs => x \ xs.foldl (· ∪ ·) ∅) :=
  ⟨sunion_mem_denote,
   fun s now keys r m hne h => sinter_mem_denote s now keys r m hne h,
   sdiff_first_present_minus_union⟩

/-- C8 witness: the characterization applied to the store with
`"k2" ↦ {"a"}`, a mixed present/absent key list, and the member `"a"`. -/
theorem set_algebra_characterization_witness :
    ("a" ∈ SetOps.sunion setAStore 0 ["missing", "k2"] ↔
      ∃ k ∈ ["missing", "k2"], "a" ∈ SetOps.denoteSet setAStore 0 k) ∧
    ("a" ∈ okResD ∅ (SetOps.sinter setAStore 0 ["k2"]) ↔
      ∀ k ∈ ["k2"], "a" ∈ SetOps.denoteSet setAStore 0 k) ∧
    (SetOps.sdiff setAStore 0 ["missing", "k2"] =
      match SetOps.presentSets setAStore 0 ["missing", "k2"] with
      | [] => ∅
      | x :: xs => x \ xs.foldl (· ∪ ·) ∅) :=
  ⟨set_algebra_characterization.1 setAStore 0 ["missing", "k2"] "a",
   set_algebra_characterization.2.1 setAStore 0 ["k2"]
      (okResD ∅ (SetOps.sinter setAStore 0 ["k2"])) "a" (by decide) rfl,
   set_algebra_characterization.2.2 setAStore 0 ["missing", "k2"]⟩

/-- C9 (code bug): as long as no member is literally named `"__temp__"`,
`GEORADIUS` on a live geo key returns the empty list whatever the query
point, the radius, the unit, or the haversine function — the source
computes each member's distance to the non-existent member `"__temp__"`
instead of to the supplied coordinates, so no member ever qualifies. -/
theorem georadius_always_empty :
    ∀ (hav : ℚ → ℚ → ℚ → ℚ → ℚ) (s : DataStore) (now : ℚ) (k : String)
      (longitude latitude radius : ℚ) (unit : String),
      ((s.geo k).getD []).lookup "__temp__" = none →
      s.existsKey now k = true → s.typeOf now k = "geo" →
      GeoOps.georadius hav s now k longitude latitude radius unit
        = .ok [] := by
  intro hav s now k longitude latitude radius unit htemp hex hty
  unfold GeoOps.georadius
  rw [if_neg (by simp [hex]), if_neg (not_not_intro hty)]
  refine congrArg Except.ok ?_
  apply List.filterMap_eq_nil_iff.mpr
  intro e _he
  have hgd : GeoOps.geodist hav s now k e.1 "__temp__" unit = .ok none := by
    unfold GeoOps.geodist
    rw [if_neg (by simp [hex]), if_neg (not_not_intro hty)]
    cases h1 : ((s.geo k).getD []).lookup e.1 <;> simp [h1, htemp]
  rw [hgd]

/-- C9 witness: the theorem at the store whose geo key `"places"` holds
`"Palermo"` at longitude 13, latitude 38, queried at exactly that point
with radius 100 km — Palermo is at haversine distance 0 and still the
result is empty. -/
theorem georadius_always_empty_witness :
    GeoOps.georadius (fun _ _ _ _ => 0) geoPalermoStore 0 "places"
      13 38 100 "km" = .ok [] :=
  georadius_always_empty (fun _ _ _ _ => 0) geoPalermoStore 0 "places"
    13 38 100 "km" rfl rfl rfl

/-- Helper: `StringOps.set` without `keepttl` (and with no new expiry)
always leaves the key with no expiration entry. -/
theorem set_noKeepttl_clears (s : DataStore) (now : ℚ) (k v : String) :
    ((StringOps.set s now k v false false none none false).1).expirations k
      = none := by
  unfold StringOps.set
  cases h : s.expirations k <;> simp [h, mapDel]

/-- C10: for a string key carrying an expiration, every successful
`APPEND`, `SETRANGE`, `GETSET`, `INCR`, `DECR`, `INCRBY` and `INCRBYFLOAT`
leaves the key with no expiration entry — each re-stores the value through
`set` without `keepttl`, which deletes the prior expiry and adds none. -/
theorem string_ops_clear_expiration :
    ∀ (pint : String → Option Int) (pfloat : String → Option ℚ)
      (fstr : ℚ → String) (s : DataStore) (now : ℚ) (k : String) (t : ℚ),
      s.expirations k = some t →
      (∀ v s' n, StringOps.append s now k v = .ok (s', n) →
        s'.expirations k = none) ∧
      (∀ off v s' n, StringOps.setrange s now k off v = .ok (s', n) →
        s'.expirations k = none) ∧
      (∀ v s' o, StringOps.getset s now k v = .ok (s', o) →
        s'.expirations k = none) ∧
      (∀ s' n, StringOps.incr pint s now k = .ok (s', n) →
        s'.expirations k = none) ∧
      (∀ s' n, StringOps.decr pint s now k = .ok (s', n) →
        s'.expirations k = none) ∧
      (∀ i s' n, StringOps.incrby pint s now k i = .ok (s', n) →
        s'.expirations k = none) ∧
      (∀ i s' n, StringOps.incrbyfloat pfloat fstr s now k i = .ok (s', n) →
        s'.expirations k = none) := by
  intro pint pfloat fstr s now k t _ht
  have hincrby : ∀ i s' n, StringOps.incrby pint s now k i = .ok (s', n) →
      s'.expirations k = none := by
    intro i s' n h
    unfold StringOps.incrby at h
    cases hg : StringOps.get s now k with
    | error e => rw [hg] at h; simp at h
    | ok g =>
      rw [hg] at h
      cases g with
      | none =>
        simp only [Except.ok.injEq, Prod.mk.injEq] at h
        obtain ⟨h1, -⟩ := h
        subst h1
        exact set_noKeepttl_clears s now k _
      | some str =>
        by_cases hstr : str = ""
        · simp only [hstr, reduceIte, Except.ok.injEq, Prod.mk.injEq] at h
          obtain ⟨h1, -⟩ := h
          subst h1
          exact set_noKeepttl_clears s now k _
        · cases hp : pint str with
          | none => simp [hstr, hp] at h
          | some nv =>
            simp only [hstr, hp, reduceIte, Except.ok.injEq,
              Prod.mk.injEq] at h
            obtain ⟨h1, -⟩ := h
            subst h1
            exact set_noKeepttl_clears s now k _
  refine ⟨?_, ?_, ?_, fun s' n h => hincrby 1 s' n h,
          fun s' n h => hincrby (-1) s' n h, hincrby, ?_⟩
  · intro v s' n h
    unfold StringOps.append at h
    cases hg : StringOps.get s now k with
    | error e => rw [hg] at h; simp at h
    | ok g =>
      rw [hg] at h
      simp only [Except.ok.injEq, Prod.mk.injEq] at h
      obtain ⟨h1, -⟩ := h
      subst h1
      exact set_noKeepttl_clears s now k _
  · intro off v s' n h
    unfold StringOps.setrange at h
    cases hg : StringOps.get s now k with
    | error e => rw [hg] at h; simp at h
    | ok g =>
      rw [hg] at h
      simp only [Except.ok.injEq, Prod.mk.injEq] at h
      obtain ⟨h1, -⟩ := h
      subst h1
      exact set_noKeepttl_clears s now k _
  · intro v s' o h
    unfold StringOps.getset at h
    cases hg : StringOps.get s now k with
    | error e => rw [hg] at h; simp at h
    | ok old =>
      rw [hg] at h
      simp only [Except.ok.injEq, Prod.mk.injEq] at h
      obtain ⟨h1, -⟩ := h
      subst h1
      exact set_noKeepttl_clears s now k _
  · intro i s' n h
    unfold StringOps.incrbyfloat at h
    cases hg : StringOps.get s now k with
    | error e => rw [hg] at h; simp at h
    | ok g =>
      rw [hg] at h
      cases g with
      | none =>
        simp only [Except.ok.injEq, Prod.mk.injEq] at h
        obtain ⟨h1, -⟩ := h
        subst h1
        exact set_noKeepttl_clears s now k _
      | some str =>
        by_cases hstr : str = ""
        · simp only [hstr, reduceIte, Except.ok.injEq, Prod.mk.injEq] at h
          obtain ⟨h1, -⟩ := h
          subst h1
          exact set_noKeepttl_clears s now k _
        · cases hp : pfloat str with
          | none => simp [hstr, hp] at h
          | some nv =>
            simp only [hstr, hp, reduceIte, Except.ok.injEq,
              Prod.mk.injEq] at h
            obtain ⟨h1, -⟩ := h
            subst h1
            exact set_noKeepttl_clears s now k _

/-- C10 witness: the theorem applied to the live string key `"k" ↦ "4"`
with expiry 100, at time 0 (the parse parameters are instantiated with
concrete functions). -/
theorem string_ops_clear_expiration_witness :
    (okStateD emptyStore
        (StringOps.append stringKeyExpStore 0 "k" "x")).expirations "k"
      = none ∧
    (okStateD emptyStore
        (StringOps.setrange stringKeyExpStore 0 "k" 1 "z")).expirations "k"
      = none ∧
    (okStateD emptyStore
        (StringOps.getset stringKeyExpStore 0 "k" "w")).expirations "k"
      = none ∧
    (okStateD emptyStore
        (StringOps.incr (fun _ => some 4) stringKeyExpStore 0 "k")).expirations "k"
      = none ∧
    (okStateD emptyStore
        (StringOps.decr (fun _ => some 4) stringKeyExpStore 0 "k")).expirations "k"
      = none ∧
    (okStateD emptyStore
        (StringOps.incrby (fun _ => some 4) stringKeyExpStore 0 "k" 3)).expirations "k"
      = none ∧
    (okStateD emptyStore
        (StringOps.incrbyfloat (fun _ => some 0) (fun _ => "0")
          stringKeyExpStore 0 "k" 2)).expirations "k"
      = none := by
  have T := string_ops_clear_expiration (fun _ => some 4) (fun _ => some 0)
    (fun _ => "0") stringKeyExpStore 0 "k" 100 (by decide)
  exact ⟨T.1 "x" _ _ rfl,
         T.2.1 1 "z" _ _ rfl,
         T.2.2.1 "w" _ _ rfl,
         T.2.2.2.1 _ _ rfl,
         T.2.2.2.2.1 _ _ rfl,
         T.2.2.2.2.2.1 3 _ _ rfl,
         T.2.2.2.2.2.2 2 _ _ rfl⟩
